import Mathlib

/-!
Verification of the cache-aside layer of the Geoservis repository: the
`InMemoryCache` TTL store (package `cache`) and the `GeoServiceProxy`
decorator (package `geo_proxy`), shallowly embedded in Lean.

Time instants and durations (`time.Time`, `time.Duration`) are modelled as
integers; `time.Now().After(t)` is `t < now`. The Go map `map[string]cacheItem`
is modelled as an association list, with map read/assign/delete translated
to first-match lookup, in-place replace-or-append, and removal. A Go
`(value, ok)` pair is modelled as `Option`: `none` encodes `(nil, false)`,
`some v` encodes `(v, true)`.
-/

set_option autoImplicit false

namespace Geoservis

/-- Go `cacheItem`: the stored payload together with its absolute expiration
instant, as written by `Set` (`expiration: time.Now().Add(ttl)`). -/
structure cacheItem (α : Type) where
  value : α
  expiration : Int
  deriving Repr, DecidableEq

/-- The `items` field of Go `InMemoryCache`: a `map[string]cacheItem`,
modelled as an association list with unique keys. -/
abbrev CacheState (α : Type) : Type := List (String × cacheItem α)

/-- Go `NewInMemoryCache` initializes `items: make(map[string]cacheItem)`. -/
def NewInMemoryCache (α : Type) : CacheState α := []

/-- Go map read `item, exists := c.items[key]`. -/
def lookupItem {α : Type} : CacheState α → String → Option (cacheItem α)
  | [], _ => none
  | (k, it) :: rest, key => if k = key then some it else lookupItem rest key

/-- Go map assignment `c.items[key] = item`: replaces the binding for `key`
if present, otherwise adds one. -/
def setItem {α : Type} : CacheState α → String → cacheItem α → CacheState α
  | [], key, it => [(key, it)]
  | (k, it0) :: rest, key, it =>
      if k = key then (key, it) :: rest else (k, it0) :: setItem rest key it

/-- Go builtin `delete(c.items, key)`: removes the binding for `key`. -/
def delItem {α : Type} : CacheState α → String → CacheState α
  | [], _ => []
  | (k, it) :: rest, key =>
      if k = key then delItem rest key else (k, it) :: delItem rest key

namespace InMemoryCache

/-- Go `InMemoryCache.Get`: returns `(nil, false)` when the key is absent or
`time.Now().After(item.expiration)` holds (that is, `item.expiration < now`),
otherwise `(item.value, true)`. The second component of the result is the
`items` map after the call; the Go body performs no mutation, so it is the
input map. -/
def Get {α : Type} (c : CacheState α) (key : String) (now : Int) :
    Option α × CacheState α :=
  match lookupItem c key with
  | none => (none, c)
  | some item =>
      if item.expiration < now then (none, c) else (some item.value, c)

/-- Go `InMemoryCache.Set`: unconditionally writes
`cacheItem\x7bvalue, time.Now().Add(ttl)\x7d` under `key`. -/
def Set {α : Type} (c : CacheState α) (key : String) (value : α)
    (ttl : Int) (now : Int) : CacheState α :=
  setItem c key { value := value, expiration := now + ttl }

/-- Go `InMemoryCache.Delete`: `delete(c.items, key)`. -/
def Delete {α : Type} (c : CacheState α) (key : String) : CacheState α :=
  delItem c key

/-- One pass of the body of the loop in Go `startCleanup`: for every entry,
delete it when `time.Now().After(item.expiration)` holds at sweep time. -/
def sweep {α : Type} (c : CacheState α) (now : Int) : CacheState α :=
  c.filter (fun p => if p.2.expiration < now then false else true)

/-- The signals the Go `startCleanup` goroutine can receive: its loop is
`for range ticker.C`, so a ticker tick is the only event it ever waits on;
no stop channel, context or other cancellation input appears in the source. -/
inductive SweepSignal where
  | tick
  deriving DecidableEq, Repr

/-- One iteration of the Go `startCleanup` loop: on the (only possible)
signal, sweep the expired entries and continue. The boolean records whether
the iteration exits the loop; no branch of the source does, so it is `false`
for the only constructor of `SweepSignal`. -/
def startCleanupStep {α : Type} (s : SweepSignal) (c : CacheState α)
    (now : Int) : CacheState α × Bool :=
  match s with
  | .tick => (sweep c now, false)

end InMemoryCache

/-! Basic lemmas about the association-list map operations. -/

theorem lookupItem_setItem_self {α : Type} (c : CacheState α) (key : String)
    (it : cacheItem α) : lookupItem (setItem c key it) key = some it := by
  induction c with
  | nil => simp [setItem, lookupItem]
  | cons hd tl ih =>
      obtain ⟨k, it0⟩ := hd
      by_cases hk : k = key
      · simp [setItem, hk, lookupItem]
      · simp [setItem, hk, lookupItem, ih]

theorem lookupItem_setItem_ne {α : Type} (c : CacheState α) (key k2 : String)
    (it : cacheItem α) (h : k2 ≠ key) :
    lookupItem (setItem c key it) k2 = lookupItem c k2 := by
  induction c with
  | nil => simp [setItem, lookupItem, Ne.symm h]
  | cons hd tl ih =>
      obtain ⟨k, it0⟩ := hd
      by_cases hk : k = key
      · subst hk
        simp [setItem, lookupItem, Ne.symm h]
      · by_cases hk2 : k = k2
        · simp [setItem, hk, lookupItem, hk2, h]
        · simp [setItem, hk, lookupItem, hk2, ih]

theorem lookupItem_delItem_self {α : Type} (c : CacheState α) (key : String) :
    lookupItem (delItem c key) key = none := by
  induction c with
  | nil => simp [delItem, lookupItem]
  | cons hd tl ih =>
      obtain ⟨k, it⟩ := hd
      by_cases hk : k = key
      · simp [delItem, hk, ih]
      · simp [delItem, hk, lookupItem, ih]

theorem delItem_absent {α : Type} (c : CacheState α) (key : String)
    (h : lookupItem c key = none) : delItem c key = c := by
  induction c with
  | nil => rfl
  | cons hd tl ih =>
      obtain ⟨k, it⟩ := hd
      by_cases hk : k = key
      · rw [lookupItem, if_pos hk] at h
        exact absurd h (by simp)
      · rw [lookupItem, if_neg hk] at h
        rw [delItem, if_neg hk, ih h]

theorem mem_setItem {α : Type} (c : CacheState α) (key : String)
    (it : cacheItem α) (p : String × cacheItem α) (hp : p ∈ setItem c key it) :
    p ∈ c ∨ p = (key, it) := by
  induction c with
  | nil =>
      rw [setItem] at hp
      exact Or.inr (by simpa using hp)
  | cons hd tl ih =>
      obtain ⟨k, it0⟩ := hd
      by_cases hk : k = key
      · rw [setItem, if_pos hk] at hp
        rcases List.mem_cons.mp hp with h2 | h2
        · exact Or.inr h2
        · exact Or.inl (List.mem_cons_of_mem _ h2)
      · rw [setItem, if_neg hk] at hp
        rcases List.mem_cons.mp hp with h2 | h2
        · exact Or.inl (by simp [h2])
        · rcases ih h2 with h3 | h3
          · exact Or.inl (List.mem_cons_of_mem _ h3)
          · exact Or.inr h3

theorem lookupItem_mem {α : Type} (c : CacheState α) (key : String)
    (it : cacheItem α) (h : lookupItem c key = some it) : (key, it) ∈ c := by
  induction c with
  | nil => simp [lookupItem] at h
  | cons hd tl ih =>
      obtain ⟨k, it0⟩ := hd
      by_cases hk : k = key
      · subst hk
        simp [lookupItem] at h
        subst h
        simp
      · simp [lookupItem, hk] at h
        simp [ih h]

/-! Lemmas relating `Get` to the map operations. -/

theorem Get_snd {α : Type} (c : CacheState α) (key : String) (now : Int) :
    (InMemoryCache.Get c key now).2 = c := by
  cases hl : lookupItem c key with
  | none => simp [InMemoryCache.Get, hl]
  | some item =>
      by_cases h : item.expiration < now <;> simp [InMemoryCache.Get, hl, h]

theorem Get_fst_of_lookup_live {α : Type} (c : CacheState α) (key : String)
    (now : Int) (it : cacheItem α) (hl : lookupItem c key = some it)
    (hlive : ¬ it.expiration < now) :
    (InMemoryCache.Get c key now).1 = some it.value := by
  simp [InMemoryCache.Get, hl, hlive]

theorem Get_fst_of_lookup_expired {α : Type} (c : CacheState α) (key : String)
    (now : Int) (it : cacheItem α) (hl : lookupItem c key = some it)
    (hexp : it.expiration < now) :
    (InMemoryCache.Get c key now).1 = none := by
  simp [InMemoryCache.Get, hl, hexp]

theorem Get_fst_some_elim {α : Type} (c : CacheState α) (key : String)
    (now : Int) (v : α) (h : (InMemoryCache.Get c key now).1 = some v) :
    ∃ it : cacheItem α, lookupItem c key = some it ∧ it.value = v ∧
      ¬ it.expiration < now := by
  cases hl : lookupItem c key with
  | none => simp [InMemoryCache.Get, hl] at h
  | some it =>
      by_cases hexp : it.expiration < now
      · simp [InMemoryCache.Get, hl, hexp] at h
      · simp [InMemoryCache.Get, hl, hexp] at h
        exact ⟨it, rfl, h, hexp⟩

theorem Get_fst_after_Set_self {α : Type} (c : CacheState α) (key : String)
    (v : α) (ttl now t : Int) (h : ¬ now + ttl < t) :
    (InMemoryCache.Get (InMemoryCache.Set c key v ttl now) key t).1 = some v := by
  simp [InMemoryCache.Get, InMemoryCache.Set, lookupItem_setItem_self, h]

/-! Theorems for the TTL-store claims. -/

/-- C1 counterexample: at the exact instant `now = expiresAt` the claim
requires a miss, but `Get` uses the strict test `time.Now().After(expiration)`,
so an entry whose expiration equals the read instant is still returned as a
hit: with one entry expiring at 5 and a read at 5, `Get` returns the value. -/
theorem get_at_exact_expiry_is_hit :
    (5 : Int) ≤ 5 ∧
    (InMemoryCache.Get
        ([("k", { value := 0, expiration := 5 })] : CacheState Nat)
        "k" 5).1 = some 0 := by
  decide

/-- C1 (amended): an entry whose `expiration` is strictly before `now` is
never returned by `Get`, whether or not the sweep has removed it; an entry
with `now ≤ expiration` is returned as a hit. Liveness is exactly
`¬ (expiration < now)`, i.e. `now ≤ expiresAt`, not `now < expiresAt`. -/
theorem get_expired_strict_miss {α : Type} (c : CacheState α) (key : String)
    (now : Int) :
    (∀ it : cacheItem α, lookupItem c key = some it → it.expiration < now →
        (InMemoryCache.Get c key now).1 = none) ∧
    (∀ it : cacheItem α, lookupItem c key = some it → ¬ it.expiration < now →
        (InMemoryCache.Get c key now).1 = some it.value) :=
  ⟨fun it hl hexp => Get_fst_of_lookup_expired c key now it hl hexp,
   fun it hl hlive => Get_fst_of_lookup_live c key now it hl hlive⟩

/-- Witness for C1 (amended) at concrete inputs: an entry expired at 3 is a
miss at 5; an entry expiring at 7 is a hit at 5. -/
theorem get_expired_strict_miss_witness :
    (InMemoryCache.Get
        ([("k", { value := 0, expiration := 3 })] : CacheState Nat) "k" 5).1
      = none ∧
    (InMemoryCache.Get
        ([("k", { value := 0, expiration := 7 })] : CacheState Nat) "k" 5).1
      = some 0 :=
  ⟨(get_expired_strict_miss _ "k" 5).1 { value := 0, expiration := 3 }
      (by decide) (by decide),
   (get_expired_strict_miss _ "k" 5).2 { value := 0, expiration := 7 }
      (by decide) (by decide)⟩

/-- C2 counterexample: `Set` with `ttl = 0` writes `expiration = now`, and a
`Get` at the same instant is a hit (the expiry test is strict), so a
non-positive TTL entry is not expired "at the same instant" as the claim
requires. -/
theorem set_zero_ttl_same_instant_hit :
    (0 : Int) ≤ 0 ∧
    (InMemoryCache.Get
        (InMemoryCache.Set ([] : CacheState Nat) "k" 0 0 0) "k" 0).1
      = some 0 := by
  decide

/-- C2 (amended): `Set` with `ttl ≤ 0` produces an entry that is expired at
every instant strictly after the write, and with `ttl < 0` the entry is
expired already at the instant of the write itself; a non-positive TTL is
never treated as "no expiration". Only the boundary read at the exact write
instant with `ttl = 0` still returns a hit. -/
theorem set_nonpositive_ttl_expired {α : Type} (c : CacheState α)
    (key : String) (v : α) (ttl now t : Int) :
    (ttl ≤ 0 → now < t →
        (InMemoryCache.Get (InMemoryCache.Set c key v ttl now) key t).1
          = none) ∧
    (ttl < 0 →
        (InMemoryCache.Get (InMemoryCache.Set c key v ttl now) key now).1
          = none) :=
  ⟨fun h1 h2 =>
      Get_fst_of_lookup_expired _ key t _
        (lookupItem_setItem_self c key { value := v, expiration := now + ttl })
        (by simpa using by omega),
   fun h1 =>
      Get_fst_of_lookup_expired _ key now _
        (lookupItem_setItem_self c key { value := v, expiration := now + ttl })
        (by simpa using by omega)⟩

/-- Witness for C2 (amended): `ttl = 0` written at 0 misses at 1; `ttl = -1`
written at 0 misses at 0. -/
theorem set_nonpositive_ttl_expired_witness :
    (InMemoryCache.Get
        (InMemoryCache.Set ([] : CacheState Nat) "k" 0 0 0) "k" 1).1
      = none ∧
    (InMemoryCache.Get
        (InMemoryCache.Set ([] : CacheState Nat) "k" 0 (-1) 0) "k" 0).1
      = none :=
  ⟨(set_nonpositive_ttl_expired [] "k" 0 0 0 1).1 (by decide) (by decide),
   (set_nonpositive_ttl_expired [] "k" 0 (-1) 0 0).2 (by decide)⟩

/-- C6: round-trip — for `ttl > 0`, a `Get` performed immediately after
`Set(k, v, ttl)` (same instant, no intervening mutation) returns the stored
value with a hit. -/
theorem get_after_set_roundtrip {α : Type} (c : CacheState α) (key : String)
    (v : α) (ttl now : Int) (h : 0 < ttl) :
    (InMemoryCache.Get (InMemoryCache.Set c key v ttl now) key now).1
      = some v :=
  Get_fst_after_Set_self c key v ttl now now (by omega)

/-- Witness for C6: storing 7 with ttl 60 at instant 0 and reading at 0. -/
theorem get_after_set_roundtrip_witness :
    (InMemoryCache.Get
        (InMemoryCache.Set ([] : CacheState Nat) "k" 7 60 0) "k" 0).1
      = some 7 :=
  get_after_set_roundtrip [] "k" 7 60 0 (by decide)

/-- C7: `Get` is read-only — for every state, key and read instant, the
`items` map after the call equals the map before it, in particular an entry
discovered to be expired is neither removed nor modified. -/
theorem get_is_readonly {α : Type} (c : CacheState α) (key : String)
    (now : Int) : (InMemoryCache.Get c key now).2 = c :=
  Get_snd c key now

/-- C8: `Delete` semantics — after `Delete(k)` a `Get(k)` misses at every
instant, for any prior state; and deleting an absent key returns normally
and leaves the state exactly unchanged. -/
theorem delete_semantics {α : Type} (c : CacheState α) (key : String) :
    (∀ now : Int,
        (InMemoryCache.Get (InMemoryCache.Delete c key) key now).1 = none) ∧
    (lookupItem c key = none → InMemoryCache.Delete c key = c) :=
  ⟨fun now => by
      simp [InMemoryCache.Get, InMemoryCache.Delete, lookupItem_delItem_self],
   fun h => delItem_absent c key h⟩

/-- Witness for C8: deleting the present key "k" makes the read miss;
deleting the absent key "x" leaves the one-entry state unchanged. -/
theorem delete_semantics_witness :
    (InMemoryCache.Get
        (InMemoryCache.Delete
          ([("k", { value := 5, expiration := 100 })] : CacheState Nat) "k")
        "k" 0).1 = none ∧
    InMemoryCache.Delete
        ([("k", { value := 5, expiration := 100 })] : CacheState Nat) "x"
      = [("k", { value := 5, expiration := 100 })] :=
  ⟨(delete_semantics _ "k").1 0, (delete_semantics _ "x").2 (by decide)⟩

/-- C9 counterexample: the sweep goroutine's loop is `for range ticker.C`,
so the only signal it can ever receive is a ticker tick, and handling a tick
never exits the loop — no stop signal that terminates the sweep exists. -/
theorem cleanup_no_stop_signal :
    ¬ ∃ s : InMemoryCache.SweepSignal,
        (InMemoryCache.startCleanupStep s ([] : CacheState Nat) 0).2 = true := by
  rintro ⟨s, hs⟩
  cases s
  simp [InMemoryCache.startCleanupStep] at hs

/-- C9 (amended): the background sweep loop started by `NewInMemoryCache`
has no stop signal: every signal it can receive leaves it running, so
shutdown relies on process termination; each iteration removes exactly the
entries whose expiration has strictly passed at sweep time. -/
theorem cleanup_loop_never_exits {α : Type} :
    (∀ (s : InMemoryCache.SweepSignal) (c : CacheState α) (now : Int),
        (InMemoryCache.startCleanupStep s c now).2 = false) ∧
    (∀ (s : InMemoryCache.SweepSignal) (c : CacheState α) (now : Int)
        (p : String × cacheItem α),
        p ∈ (InMemoryCache.startCleanupStep s c now).1 ↔
          p ∈ c ∧ ¬ p.2.expiration < now) := by
  constructor
  · rintro ⟨⟩ c now
    rfl
  · rintro ⟨⟩ c now p
    by_cases h : p.2.expiration < now <;>
      simp [InMemoryCache.startCleanupStep, InMemoryCache.sweep,
        List.mem_filter, h]

/-!
The `GeoServiceProxy` decorator (package `geo_proxy`). The upstream
`service.GeoServicer` is modelled as a pair of pure lookup functions
returning `Except`; `E` is the Go `error` type and `Addr` the
`service.Address` payload, both kept abstract. A value stored through
Go `interface` is modelled by `GoValue`: the proxy stores address slices,
while other writers (such as the cache package's own tests) store strings.
-/

/-- A value as stored in the cache through the Go empty-interface value
type: either an address slice (`[]*service.Address`, what the proxy writes)
or some other payload (modelled as a string, as the cache tests store). -/
inductive GoValue (Addr : Type) where
  | addrs : List Addr → GoValue Addr
  | str : String → GoValue Addr
  deriving DecidableEq, Repr

/-- True exactly when the stored value is an address slice, so that the
type assertion `cached.([]*service.Address)` succeeds on it. -/
def GoValue.isAddrList {Addr : Type} : GoValue Addr → Bool
  | .addrs _ => true
  | .str _ => false

/-- Outcome of one proxy call: `ok` and `err` are the two Go return paths
`(data, nil)` and `(nil, err)`; `panicked` is the unchecked type assertion
`cached.([]*service.Address)` failing on a cache hit. -/
inductive ProxyResult (E Addr : Type) where
  | ok : List Addr → ProxyResult E Addr
  | err : E → ProxyResult E Addr
  | panicked : ProxyResult E Addr
  deriving DecidableEq, Repr

/-- The upstream `service.GeoServicer` capability consumed by the proxy. -/
structure GeoServicer (E Addr : Type) where
  addressSearch : String → Except E (List Addr)
  geoCode : String → String → Except E (List Addr)

/-- Result of a proxy call: the returned value or error, the cache state
after the call, and how many upstream calls the invocation performed. -/
structure ProxyOutput (E Addr : Type) where
  result : ProxyResult E Addr
  state : CacheState (GoValue Addr)
  upstreamCalls : Nat
  deriving DecidableEq, Repr

/-- The cache key derived by `AddressSearch`: `"search:" + input`. -/
def searchKey (input : String) : String := "search:" ++ input

/-- The cache key derived by `GeoCode`: `"geocode:" + lat + ":" + lng`. -/
def geocodeKey (lat lng : String) : String :=
  "geocode:" ++ lat ++ ":" ++ lng

namespace GeoServiceProxy

/-- Go `GeoServiceProxy.AddressSearch`: derive the key, try the cache; on a
hit return the cached value through the type assertion (panicking if the
stored value is not an address slice); on a miss call the upstream service,
propagate its error without writing, or store the data with the configured
TTL and return it. -/
def AddressSearch {E Addr : Type} (g : GeoServicer E Addr) (ttl : Int)
    (c : CacheState (GoValue Addr)) (now : Int) (input : String) :
    ProxyOutput E Addr :=
  let cacheKey := searchKey input
  match (InMemoryCache.Get c cacheKey now).1 with
  | some (GoValue.addrs data) => ⟨.ok data, c, 0⟩
  | some (GoValue.str _) => ⟨.panicked, c, 0⟩
  | none =>
      match g.addressSearch input with
      | .error e => ⟨.err e, c, 1⟩
      | .ok data =>
          ⟨.ok data, InMemoryCache.Set c cacheKey (GoValue.addrs data) ttl now,
            1⟩

/-- Go `GeoServiceProxy.GeoCode`: identical cache-aside control flow to
`AddressSearch`, with the geocode key and the upstream `GeoCode` call. -/
def GeoCode {E Addr : Type} (g : GeoServicer E Addr) (ttl : Int)
    (c : CacheState (GoValue Addr)) (now : Int) (lat lng : String) :
    ProxyOutput E Addr :=
  let cacheKey := geocodeKey lat lng
  match (InMemoryCache.Get c cacheKey now).1 with
  | some (GoValue.addrs data) => ⟨.ok data, c, 0⟩
  | some (GoValue.str _) => ⟨.panicked, c, 0⟩
  | none =>
      match g.geoCode lat lng with
      | .error e => ⟨.err e, c, 1⟩
      | .ok data =>
          ⟨.ok data, InMemoryCache.Set c cacheKey (GoValue.addrs data) ttl now,
            1⟩

end GeoServiceProxy

/-- One mutation of the shared store performed through the proxy: an
`AddressSearch` or `GeoCode` call at some instant. -/
inductive ProxyOp where
  | search : Int → String → ProxyOp
  | geocode : Int → String → String → ProxyOp

/-- The cache state left behind by one proxy call. -/
def runOp {E Addr : Type} (g : GeoServicer E Addr) (ttl : Int)
    (c : CacheState (GoValue Addr)) : ProxyOp → CacheState (GoValue Addr)
  | .search now input => (GeoServiceProxy.AddressSearch g ttl c now input).state
  | .geocode now lat lng => (GeoServiceProxy.GeoCode g ttl c now lat lng).state

/-- The cache state after a sequence of proxy calls. -/
def runOps {E Addr : Type} (g : GeoServicer E Addr) (ttl : Int) :
    CacheState (GoValue Addr) → List ProxyOp → CacheState (GoValue Addr)
  | c, [] => c
  | c, op :: ops => runOps g ttl (runOp g ttl c op) ops

/-- Every value in the store is an address slice, so every hit survives the
proxy's unchecked type assertion. -/
def allAddrValues {Addr : Type} (c : CacheState (GoValue Addr)) : Prop :=
  ∀ p ∈ c, p.2.value.isAddrList = true

instance allAddrValuesDecidable {Addr : Type} [DecidableEq Addr]
    (c : CacheState (GoValue Addr)) : Decidable (allAddrValues c) :=
  inferInstanceAs (Decidable (∀ p ∈ c, p.2.value.isAddrList = true))

/-! Theorems for the proxy claims. -/

/-- C3: cache-aside correctness. On a miss with a successful upstream
lookup, `AddressSearch` returns the upstream result, performs exactly one
upstream call, and stores the result under the derived key with the
configured TTL; a repeat call at any instant within the TTL window then
returns the same result from the cache with zero upstream calls. On a hit
the cached value is returned with zero upstream calls. The same holds for
`GeoCode` with its own key. -/
theorem cache_aside_correct {E Addr : Type} (g : GeoServicer E Addr)
    (ttl : Int) (c : CacheState (GoValue Addr)) (now : Int) :
    (∀ (input : String) (R : List Addr),
        (InMemoryCache.Get c (searchKey input) now).1 = none →
        g.addressSearch input = .ok R →
        GeoServiceProxy.AddressSearch g ttl c now input =
          ⟨.ok R,
            InMemoryCache.Set c (searchKey input) (GoValue.addrs R) ttl now,
            1⟩ ∧
        ∀ t : Int, t ≤ now + ttl →
          GeoServiceProxy.AddressSearch g ttl
              (InMemoryCache.Set c (searchKey input) (GoValue.addrs R) ttl now)
              t input =
            ⟨.ok R,
              InMemoryCache.Set c (searchKey input) (GoValue.addrs R) ttl now,
              0⟩) ∧
    (∀ (input : String) (v : List Addr),
        (InMemoryCache.Get c (searchKey input) now).1
            = some (GoValue.addrs v) →
        GeoServiceProxy.AddressSearch g ttl c now input = ⟨.ok v, c, 0⟩) ∧
    (∀ (lat lng : String) (R : List Addr),
        (InMemoryCache.Get c (geocodeKey lat lng) now).1 = none →
        g.geoCode lat lng = .ok R →
        GeoServiceProxy.GeoCode g ttl c now lat lng =
          ⟨.ok R,
            InMemoryCache.Set c (geocodeKey lat lng) (GoValue.addrs R) ttl now,
            1⟩ ∧
        ∀ t : Int, t ≤ now + ttl →
          GeoServiceProxy.GeoCode g ttl
              (InMemoryCache.Set c (geocodeKey lat lng) (GoValue.addrs R) ttl
                now) t lat lng =
            ⟨.ok R,
              InMemoryCache.Set c (geocodeKey lat lng) (GoValue.addrs R) ttl
                now,
              0⟩) ∧
    (∀ (lat lng : String) (v : List Addr),
        (InMemoryCache.Get c (geocodeKey lat lng) now).1
            = some (GoValue.addrs v) →
        GeoServiceProxy.GeoCode g ttl c now lat lng = ⟨.ok v, c, 0⟩) := by
  refine ⟨fun input R hmiss hup => ⟨?_, fun t ht => ?_⟩,
    fun input v hhit => ?_,
    fun lat lng R hmiss hup => ⟨?_, fun t ht => ?_⟩,
    fun lat lng v hhit => ?_⟩
  · simp [GeoServiceProxy.AddressSearch, hmiss, hup]
  · have hh := Get_fst_after_Set_self c (searchKey input) (GoValue.addrs R)
      ttl now t (by omega)
    simp [GeoServiceProxy.AddressSearch, hh]
  · simp [GeoServiceProxy.AddressSearch, hhit]
  · simp [GeoServiceProxy.GeoCode, hmiss, hup]
  · have hh := Get_fst_after_Set_self c (geocodeKey lat lng) (GoValue.addrs R)
      ttl now t (by omega)
    simp [GeoServiceProxy.GeoCode, hh]
  · simp [GeoServiceProxy.GeoCode, hhit]

/-- Witness for C3: with an upstream that answers `[3]` for every search,
a first `AddressSearch` on the empty store at instant 0 calls upstream once
and stores the result; a second call at instant 30 (within the 60 TTL)
returns the same result with zero upstream calls. -/
theorem cache_aside_correct_witness :
    GeoServiceProxy.AddressSearch
        (⟨fun _ => Except.ok [3], fun _ _ => Except.ok [4]⟩ :
          GeoServicer String Nat) 60 [] 0 "A" =
      ⟨.ok [3], InMemoryCache.Set [] (searchKey "A") (GoValue.addrs [3]) 60 0,
        1⟩ ∧
    GeoServiceProxy.AddressSearch
        (⟨fun _ => Except.ok [3], fun _ _ => Except.ok [4]⟩ :
          GeoServicer String Nat) 60
        (InMemoryCache.Set [] (searchKey "A") (GoValue.addrs [3]) 60 0)
        30 "A" =
      ⟨.ok [3], InMemoryCache.Set [] (searchKey "A") (GoValue.addrs [3]) 60 0,
        0⟩ :=
  ⟨((cache_aside_correct
      (⟨fun _ => Except.ok [3], fun _ _ => Except.ok [4]⟩ :
        GeoServicer String Nat) 60 [] 0).1 "A" [3] rfl rfl).1,
   ((cache_aside_correct
      (⟨fun _ => Except.ok [3], fun _ _ => Except.ok [4]⟩ :
        GeoServicer String Nat) 60 [] 0).1 "A" [3] rfl rfl).2 30 (by decide)⟩

/-- C4: failure isolation. On a miss, an upstream error is propagated
verbatim, the store state is exactly unchanged (no entry is written), and
the one upstream call is the only one performed — so an identical repeat
call finds the store as before and retries upstream. Likewise for
`GeoCode`. -/
theorem upstream_error_not_cached {E Addr : Type} (g : GeoServicer E Addr)
    (ttl : Int) (c : CacheState (GoValue Addr)) (now : Int) :
    (∀ (input : String) (e : E),
        (InMemoryCache.Get c (searchKey input) now).1 = none →
        g.addressSearch input = .error e →
        GeoServiceProxy.AddressSearch g ttl c now input = ⟨.err e, c, 1⟩) ∧
    (∀ (lat lng : String) (e : E),
        (InMemoryCache.Get c (geocodeKey lat lng) now).1 = none →
        g.geoCode lat lng = .error e →
        GeoServiceProxy.GeoCode g ttl c now lat lng = ⟨.err e, c, 1⟩) := by
  refine ⟨fun input e hmiss hup => ?_, fun lat lng e hmiss hup => ?_⟩
  · simp [GeoServiceProxy.AddressSearch, hmiss, hup]
  · simp [GeoServiceProxy.GeoCode, hmiss, hup]

/-- Witness for C4: an upstream that always fails with "boom" leaves the
empty store empty and propagates the error, for both operations. -/
theorem upstream_error_not_cached_witness :
    GeoServiceProxy.AddressSearch
        (⟨fun _ => Except.error "boom", fun _ _ => Except.error "boom"⟩ :
          GeoServicer String Nat) 60 [] 0 "A" = ⟨.err "boom", [], 1⟩ ∧
    GeoServiceProxy.GeoCode
        (⟨fun _ => Except.error "boom", fun _ _ => Except.error "boom"⟩ :
          GeoServicer String Nat) 60 [] 0 "55" "37" = ⟨.err "boom", [], 1⟩ :=
  ⟨(upstream_error_not_cached
      (⟨fun _ => Except.error "boom", fun _ _ => Except.error "boom"⟩ :
        GeoServicer String Nat) 60 [] 0).1 "A" "boom" rfl rfl,
   (upstream_error_not_cached
      (⟨fun _ => Except.error "boom", fun _ _ => Except.error "boom"⟩ :
        GeoServicer String Nat) 60 [] 0).2 "55" "37" "boom" rfl rfl⟩

/-- C5 counterexample: the two distinct `GeoCode` parameter tuples
`("1:2", "3")` and `("1", "2:3")` are semantically distinct queries, yet
naive `":"`-joining maps both to the store key `"geocode:1:2:3"`. -/
theorem geocode_key_collision :
    geocodeKey "1:2" "3" = geocodeKey "1" "2:3" ∧
    ("1:2", "3") ≠ (("1", "2:3") : String × String) :=
  ⟨rfl, by decide⟩

/-- C5 (amended): key derivation is deterministic (it is a pure function of
the parameters); a search key never collides with a geocode key; distinct
search inputs give distinct keys; and two geocode tuples collide exactly
when joining their components with `":"` yields the same string — which can
happen for distinct tuples when a component itself contains `":"`. -/
theorem key_derivation_amended :
    (∀ q q2 : String, searchKey q = searchKey q2 → q = q2) ∧
    (∀ q a b : String, searchKey q ≠ geocodeKey a b) ∧
    (∀ a b a2 b2 : String, geocodeKey a b = geocodeKey a2 b2 →
        a ++ ":" ++ b = a2 ++ ":" ++ b2) := by
  refine ⟨fun q q2 h => ?_, fun q a b h => ?_, fun a b a2 b2 h => ?_⟩
  · have hd := congrArg String.data h
    simp only [searchKey, String.data_append] at hd
    exact String.ext (List.append_cancel_left hd)
  · have hd := congrArg String.data h
    simp only [searchKey, geocodeKey, String.data_append,
      List.append_assoc] at hd
    simp [show ("search:" : String).data = ['s','e','a','r','c','h',':']
        from rfl,
      show ("geocode:" : String).data = ['g','e','o','c','o','d','e',':']
        from rfl] at hd
  · have hd := congrArg String.data h
    simp only [geocodeKey, String.data_append, List.append_assoc] at hd
    have hc := List.append_cancel_left hd
    apply String.ext
    simp only [String.data_append, List.append_assoc]
    exact hc

/-- Witness for C5 (amended) at concrete inputs: search-key injectivity at
"A", cross-operation distinctness for `Search("A")` versus
`ReverseLookup("A","")`, and geocode cancellation at `("B","c")`. -/
theorem key_derivation_amended_witness :
    ("A" : String) = "A" ∧
    searchKey "A" ≠ geocodeKey "A" "" ∧
    ("B" ++ ":" ++ "c" : String) = "B" ++ ":" ++ "c" :=
  ⟨key_derivation_amended.1 "A" "A" rfl,
   key_derivation_amended.2.1 "A" "A" "",
   key_derivation_amended.2.2 "B" "c" "B" "c" rfl⟩

/-! Preservation of the address-slice invariant under proxy writes. -/

theorem allAddrValues_setItem {Addr : Type} (c : CacheState (GoValue Addr))
    (key : String) (it : cacheItem (GoValue Addr))
    (hit : it.value.isAddrList = true) (h : allAddrValues c) :
    allAddrValues (setItem c key it) := by
  intro p hp
  rcases mem_setItem c key it p hp with h2 | h2
  · exact h p h2
  · rw [h2]
    exact hit

theorem allAddrValues_state_AddressSearch {E Addr : Type}
    (g : GeoServicer E Addr) (ttl : Int) (c : CacheState (GoValue Addr))
    (now : Int) (input : String) (h : allAddrValues c) :
    allAddrValues (GeoServiceProxy.AddressSearch g ttl c now input).state := by
  cases hget : (InMemoryCache.Get c (searchKey input) now).1 with
  | none =>
      cases hup : g.addressSearch input with
      | error e => simpa [GeoServiceProxy.AddressSearch, hget, hup] using h
      | ok data =>
          have hs : (GeoServiceProxy.AddressSearch g ttl c now input).state =
              setItem c (searchKey input)
                { value := GoValue.addrs data, expiration := now + ttl } := by
            simp [GeoServiceProxy.AddressSearch, hget, hup,
              InMemoryCache.Set]
          rw [hs]
          exact allAddrValues_setItem c (searchKey input) _ rfl h
  | some v =>
      cases v with
      | addrs data => simpa [GeoServiceProxy.AddressSearch, hget] using h
      | str s => simpa [GeoServiceProxy.AddressSearch, hget] using h

theorem allAddrValues_state_GeoCode {E Addr : Type}
    (g : GeoServicer E Addr) (ttl : Int) (c : CacheState (GoValue Addr))
    (now : Int) (lat lng : String) (h : allAddrValues c) :
    allAddrValues (GeoServiceProxy.GeoCode g ttl c now lat lng).state := by
  cases hget : (InMemoryCache.Get c (geocodeKey lat lng) now).1 with
  | none =>
      cases hup : g.geoCode lat lng with
      | error e => simpa [GeoServiceProxy.GeoCode, hget, hup] using h
      | ok data =>
          have hs : (GeoServiceProxy.GeoCode g ttl c now lat lng).state =
              setItem c (geocodeKey lat lng)
                { value := GoValue.addrs data, expiration := now + ttl } := by
            simp [GeoServiceProxy.GeoCode, hget, hup, InMemoryCache.Set]
          rw [hs]
          exact allAddrValues_setItem c (geocodeKey lat lng) _ rfl h
  | some v =>
      cases v with
      | addrs data => simpa [GeoServiceProxy.GeoCode, hget] using h
      | str s => simpa [GeoServiceProxy.GeoCode, hget] using h

theorem allAddrValues_runOps {E Addr : Type} (g : GeoServicer E Addr)
    (ttl : Int) (ops : List ProxyOp) :
    ∀ c : CacheState (GoValue Addr), allAddrValues c →
      allAddrValues (runOps g ttl c ops) := by
  induction ops with
  | nil => exact fun c h => h
  | cons op ops ih =>
      intro c h
      cases op with
      | search now input =>
          exact ih _ (allAddrValues_state_AddressSearch g ttl c now input h)
      | geocode now lat lng =>
          exact ih _ (allAddrValues_state_GeoCode g ttl c now lat lng h)

theorem AddressSearch_no_panic {E Addr : Type} (g : GeoServicer E Addr)
    (ttl : Int) (c : CacheState (GoValue Addr)) (now : Int) (input : String)
    (h : allAddrValues c) :
    (GeoServiceProxy.AddressSearch g ttl c now input).result
      ≠ ProxyResult.panicked := by
  cases hget : (InMemoryCache.Get c (searchKey input) now).1 with
  | none =>
      cases hup : g.addressSearch input with
      | error e => simp [GeoServiceProxy.AddressSearch, hget, hup]
      | ok data => simp [GeoServiceProxy.AddressSearch, hget, hup]
  | some v =>
      cases v with
      | addrs data => simp [GeoServiceProxy.AddressSearch, hget]
      | str s =>
          exfalso
          obtain ⟨it, hl, hval, hlive⟩ :=
            Get_fst_some_elim c (searchKey input) now _ hget
          have hinv := h (searchKey input, it)
            (lookupItem_mem c (searchKey input) it hl)
          rw [hval] at hinv
          simp [GoValue.isAddrList] at hinv

theorem GeoCode_no_panic {E Addr : Type} (g : GeoServicer E Addr)
    (ttl : Int) (c : CacheState (GoValue Addr)) (now : Int) (lat lng : String)
    (h : allAddrValues c) :
    (GeoServiceProxy.GeoCode g ttl c now lat lng).result
      ≠ ProxyResult.panicked := by
  cases hget : (InMemoryCache.Get c (geocodeKey lat lng) now).1 with
  | none =>
      cases hup : g.geoCode lat lng with
      | error e => simp [GeoServiceProxy.GeoCode, hget, hup]
      | ok data => simp [GeoServiceProxy.GeoCode, hget, hup]
  | some v =>
      cases v with
      | addrs data => simp [GeoServiceProxy.GeoCode, hget]
      | str s =>
          exfalso
          obtain ⟨it, hl, hval, hlive⟩ :=
            Get_fst_some_elim c (geocodeKey lat lng) now _ hget
          have hinv := h (geocodeKey lat lng, it)
            (lookupItem_mem c (geocodeKey lat lng) it hl)
          rw [hval] at hinv
          simp [GoValue.isAddrList] at hinv

/-- C10: implicit type safety of the unchecked assertion. In every
execution that mutates the store only through the proxy's two operations
starting from the freshly constructed store, every stored value is an
address slice; on any state satisfying that invariant neither operation can
reach the `panicked` outcome; and if a foreign writer has stored a
non-address value under a derived key, a live hit on it panics instead of
returning an error. -/
theorem proxy_type_safety {E Addr : Type} (g : GeoServicer E Addr)
    (ttl : Int) :
    (∀ ops : List ProxyOp,
        allAddrValues (runOps g ttl (NewInMemoryCache (GoValue Addr)) ops)) ∧
    (∀ c : CacheState (GoValue Addr), allAddrValues c →
        ∀ (now : Int) (input : String),
          (GeoServiceProxy.AddressSearch g ttl c now input).result
            ≠ ProxyResult.panicked) ∧
    (∀ c : CacheState (GoValue Addr), allAddrValues c →
        ∀ (now : Int) (lat lng : String),
          (GeoServiceProxy.GeoCode g ttl c now lat lng).result
            ≠ ProxyResult.panicked) ∧
    (∀ (c : CacheState (GoValue Addr)) (now : Int) (input s : String),
        (InMemoryCache.Get c (searchKey input) now).1
            = some (GoValue.str s) →
        (GeoServiceProxy.AddressSearch g ttl c now input).result
          = ProxyResult.panicked) := by
  refine ⟨fun ops => ?_, fun c h now input => ?_, fun c h now lat lng => ?_,
    fun c now input s hget => ?_⟩
  · exact allAddrValues_runOps g ttl ops (NewInMemoryCache (GoValue Addr))
      (fun p hp => absurd hp (by simp [NewInMemoryCache]))
  · exact AddressSearch_no_panic g ttl c now input h
  · exact GeoCode_no_panic g ttl c now lat lng h
  · simp [GeoServiceProxy.AddressSearch, hget]

/-- Witness for C10: a proxy-only history keeps the invariant; on an
invariant state the call does not panic; and a foreign string stored under
"search:x" makes the hit panic. -/
theorem proxy_type_safety_witness :
    allAddrValues
      (runOps
        (⟨fun _ => Except.ok [3], fun _ _ => Except.ok [4]⟩ :
          GeoServicer String Nat) 60 (NewInMemoryCache (GoValue Nat))
        [ProxyOp.search 0 "A", ProxyOp.geocode 1 "55" "37"]) ∧
    (GeoServiceProxy.AddressSearch
        (⟨fun _ => Except.ok [3], fun _ _ => Except.ok [4]⟩ :
          GeoServicer String Nat) 60 [] 0 "A").result
      ≠ ProxyResult.panicked ∧
    (GeoServiceProxy.AddressSearch
        (⟨fun _ => Except.ok [3], fun _ _ => Except.ok [4]⟩ :
          GeoServicer String Nat) 60
        [("search:x", { value := GoValue.str "s", expiration := 10 })]
        0 "x").result = ProxyResult.panicked :=
  ⟨(proxy_type_safety
      (⟨fun _ => Except.ok [3], fun _ _ => Except.ok [4]⟩ :
        GeoServicer String Nat) 60).1
      [ProxyOp.search 0 "A", ProxyOp.geocode 1 "55" "37"],
   (proxy_type_safety
      (⟨fun _ => Except.ok [3], fun _ _ => Except.ok [4]⟩ :
        GeoServicer String Nat) 60).2.1 [] (by decide) 0 "A",
   (proxy_type_safety
      (⟨fun _ => Except.ok [3], fun _ _ => Except.ok [4]⟩ :
        GeoServicer String Nat) 60).2.2.2
      [("search:x", { value := GoValue.str "s", expiration := 10 })]
      0 "x" "s" (by decide)⟩

end Geoservis
